import Mathlib

/-!
Shallow embedding of the Tom Riddle diary page: the client-side interaction
controller (word-count based fade delays, the submit operation and its error
handling, the fade-scheduling effect) and the chat relay endpoint (request
validation, history truncation, role mapping).  Numeric computations that the
browser performs on floating-point numbers are modelled over the rationals.
-/

namespace Diary

/-- Characters matched by the whitespace class of the regular expression
used in the word split, and removed by trim. -/
def isSpace (c : Char) : Bool :=
  c == ' ' || c == '\t' || c == '\n' || c == '\r' || c == '\x0b' || c == '\x0c'

/-- Model of the trim method on strings: remove leading and trailing
whitespace characters. -/
def jsTrim (s : String) : String :=
  ⟨((s.data.dropWhile isSpace).reverse.dropWhile isSpace).reverse⟩

/-- Helper for countWords: walks the characters, counting the maximal runs of
non-whitespace characters.  The boolean records whether the previous character
belonged to a word. -/
def countWordsAux : List Char → Bool → Nat
  | [], _ => 0
  | c :: rest, inWord =>
    if isSpace c then countWordsAux rest false
    else (if inWord then 0 else 1) + countWordsAux rest true

/-- Word count of a text: the length of text.trim() split on whitespace runs
with empty fragments dropped, i.e. the number of maximal runs of
non-whitespace characters. -/
def countWords (s : String) : Nat := countWordsAux s.data false

/-- Model of Math.max on rationals, kept executable for the kernel. -/
def ratMax (a b : ℚ) : ℚ := if a ≤ b then b else a

/-- Model of Math.min on rationals, kept executable for the kernel. -/
def ratMin (a b : ℚ) : ℚ := if a ≤ b then a else b

/-- Reading time in seconds at roughly 200 words per minute:
words / (200 / 60). -/
def getReadingTimeSeconds (text : String) : ℚ :=
  (countWords text : ℚ) / (200 / 60)

/-- Delay in milliseconds before an AI message starts fading: base (4 s)
plus reading time, clamped to between 5 s and 15 s, in milliseconds. -/
def getAIMessageFadeDelayMs (text : String) : ℚ :=
  let readingSec := getReadingTimeSeconds text
  let totalSec := 4 + readingSec
  let clamped := ratMax 5 (ratMin 15 totalSec)
  clamped * 1000

/-- Message roles on the client. -/
inductive Role
  | user
  | assistant
deriving DecidableEq

/-- A chat message as stored in the message history. -/
structure Message where
  role : Role
  content : String
deriving DecidableEq

/-- The interaction-controller state touched by the submit flow: the input
field, the message history, the loading flag, the transient typing slot, the
fading copy of the submitted text and the input-reveal flag.  Transient
visual effects (scroll flash, click prompt) carry only screen coordinates
and are not part of this state. -/
structure ClientState where
  inputValue : String
  messages : List Message
  isLoading : Bool
  currentResponse : String
  fadingUserText : Option String
  inputRevealed : Bool
deriving DecidableEq

/-- Fallback text used when a thrown value carries no message. -/
def clientFallbackMessage : String :=
  "Something went wrong. Perhaps the diary is reluctant to reply just now. Try again."

/-- Error text thrown by the client when the relay reply is empty. -/
def nothingToSayMessage : String :=
  "The diary had nothing to say. Try rephrasing."

/-- Model of the JavaScript expression o || d on an optional string: the
default is used when the value is absent or an empty string (falsy). -/
def jsOr (o : Option String) (d : String) : String :=
  match o with
  | some s => if s = "" then d else s
  | none => d

/-- The decoded JSON body of a relay response, as far as the client reads
it: an optional error string and an optional content string. -/
structure RelayData where
  error : Option String
  content : Option String
deriving DecidableEq

/-- Outcome of the fetch to the relay, seen from the client: either the
promise rejected (carrying the message of the thrown value when it is an
Error object), or a response arrived with an ok flag and a body that either
decodes as JSON or does not. -/
inductive FetchOutcome
  | thrown (msg : Option String)
  | response (ok : Bool) (json : Option RelayData)
deriving DecidableEq

/-- The synchronous part of sendMessage, run before the network call:
clear the input, show the fading copy of the submitted text, append the
user message, raise the loading flag and clear the typing slot. -/
def sendMessagePre (s : ClientState) : ClientState :=
  let text := jsTrim s.inputValue
  { s with
    inputValue := ""
    fadingUserText := some text
    messages := s.messages ++ [{ role := Role.user, content := text }]
    isLoading := true
    currentResponse := "" }

/-- The part of sendMessage that runs once the fetch settles.  A non-ok
response throws the decoded error text (or a default), an undecodable body
substitutes a placeholder error object, an empty reply throws the
nothing-to-say text; every throw is caught and appended as an
assistant-role message.  A non-empty reply is appended as the assistant
message after the typing animation.  The finally clause clears the
loading flag on every path. -/
def sendMessageNet (pre : ClientState) (o : FetchOutcome) : ClientState :=
  match o with
  | .thrown m =>
    let message := m.getD clientFallbackMessage
    { pre with
      messages := pre.messages ++ [{ role := Role.assistant, content := message }]
      isLoading := false }
  | .response ok json =>
    let data : RelayData :=
      match json with
      | some d => d
      | none =>
        { error := some (if ok then "Invalid response." else "Request failed.")
          content := none }
    if ok = false then
      let message := jsOr data.error "Request failed"
      { pre with
        messages := pre.messages ++ [{ role := Role.assistant, content := message }]
        isLoading := false }
    else
      let fullText :=
        match data.content with
        | some c => jsTrim c
        | none => ""
      if fullText = "" then
        { pre with
          messages := pre.messages ++ [{ role := Role.assistant, content := nothingToSayMessage }]
          isLoading := false }
      else
        { pre with
          messages := pre.messages ++ [{ role := Role.assistant, content := fullText }]
          currentResponse := ""
          isLoading := false }

/-- The whole submit operation.  Returns the resulting state together with
a flag telling whether the network call was made.  Blank (after trim) input
or a request already in flight returns immediately. -/
def sendMessage (s : ClientState) (o : FetchOutcome) : ClientState × Bool :=
  let text := jsTrim s.inputValue
  if text = "" ∨ s.isLoading = true then (s, false)
  else (sendMessageNet (sendMessagePre s) o, true)

/-- The operations of the interaction controller that can touch the
modelled state: a submit (with the fetch outcome), a click on the page (the
flag tells whether the click target is one of the excluded regions), a
printable keypress while the input is not focused (the flags model focus
and modifier keys), and typing into the input field. -/
inductive ClientOp
  | send (o : FetchOutcome)
  | click (excluded : Bool)
  | keySeed (c : Char) (focused : Bool) (modifier : Bool)
  | setInput (v : String)

/-- One event-handler step of the interaction controller. -/
def clientStep (s : ClientState) : ClientOp → ClientState
  | .send o => (sendMessage s o).1
  | .click excluded =>
    if s.messages.length > 0 ∨ s.inputValue ≠ "" then s
    else if excluded then s
    else { s with inputRevealed := true }
  | .keySeed c focused modifier =>
    if s.messages.length > 0 ∨ s.isLoading = true then s
    else if focused then s
    else if modifier then s
    else { s with inputRevealed := true, inputValue := s.inputValue.push c }
  | .setInput v => { s with inputValue := v }

/-- One pass of the fade-scheduling effect over the indexed message list:
every assistant message whose index is not yet in the scheduled set is added
to it and a timer (index, delay) is emitted for it. -/
def scheduleFadeAux : List (ℕ × Message) → Finset ℕ → Finset ℕ × List (ℕ × ℚ)
  | [], sched => (sched, [])
  | (i, m) :: rest, sched =>
    if m.role = Role.assistant ∧ i ∉ sched then
      let r := scheduleFadeAux rest (insert i sched)
      (r.1, (i, getAIMessageFadeDelayMs m.content) :: r.2)
    else
      scheduleFadeAux rest sched

/-- One run of the fade-scheduling effect over a message history. -/
def scheduleFadeStep (msgs : List Message) (sched : Finset ℕ) :
    Finset ℕ × List (ℕ × ℚ) :=
  scheduleFadeAux msgs.enum sched

/-- Repeated runs of the fade-scheduling effect, one per history snapshot,
threading the scheduled set through and collecting all emitted timers. -/
def runScheduleSeq : Finset ℕ → List (List Message) → Finset ℕ × List (ℕ × ℚ)
  | sched, [] => (sched, [])
  | sched, msgs :: rest =>
    let r₁ := scheduleFadeStep msgs sched
    let r₂ := runScheduleSeq r₁.1 rest
    (r₂.1, r₁.2 ++ r₂.2)

/-- A turn as received by the relay: a role string and an optional content
string (absent when the JSON object has no content field). -/
structure RelayMsg where
  role : String
  content : Option String
deriving DecidableEq

/-- The request body as the relay reads it: either the JSON parse throws,
or a parsed object whose messages field is an array (some list) or is
missing or not an array (none). -/
inductive ReqBody
  | invalid
  | parsed (messages : Option (List RelayMsg))

/-- A value thrown inside the relay handler: an Error object with a
message, a plain string, or anything else. -/
inductive ThrownVal
  | errObj (msg : String)
  | strVal (s : String)
  | otherVal

/-- Outcome of the upstream model call: either it threw, or it produced a
text (none models a non-string result of the text accessor). -/
inductive GenOutcome
  | thrown (v : ThrownVal)
  | generated (text : Option String)

/-- A relay response body: an error object or a content object. -/
inductive RespBody
  | failure (e : String)
  | success (content : String)
deriving DecidableEq

/-- What the relay hands to the hosted model session: the replayed
conversation history (mapped role string, raw content) and the new input
text for sendMessage. -/
structure ModelCall where
  history : List (String × Option String)
  input : String
deriving DecidableEq

/-- Best-effort extraction of an error message from a thrown value. -/
def toErrorMessage : ThrownVal → String
  | .errObj m => m
  | .strVal s => s
  | .otherVal => "Chat failed."

/-- Error text for an empty or blocked upstream generation. -/
def blockedMessage : String :=
  "The diary had nothing to say. It may have been blocked or returned no text. Try rephrasing."

/-- The relay handler.  Parameters: the configured credential (none when the
environment variable is missing), the request body, and the outcome of the
upstream model call (only reached on a valid request).  Returns the HTTP
status with the response body, together with the model call that was made,
none when the upstream service was never contacted. -/
def POST (apiKey : Option String) (body : ReqBody) (gen : GenOutcome) :
    (ℕ × RespBody) × Option ModelCall :=
  match apiKey with
  | none => ((500, .failure "GEMINI_API_KEY is not configured."), none)
  | some _ =>
    match body with
    | .invalid => ((400, .failure "Invalid JSON body."), none)
    | .parsed none => ((400, .failure "messages array is required."), none)
    | .parsed (some msgs) =>
      if msgs.length = 0 then ((400, .failure "messages array is required."), none)
      else
        match (msgs.filter (fun m => m.role == "user")).getLast? with
        | none => ((400, .failure "No user message content."), none)
        | some lastUser =>
          match lastUser.content with
          | none => ((400, .failure "No user message content."), none)
          | some c =>
            if jsTrim c = "" then ((400, .failure "No user message content."), none)
            else
              let historyMessages := msgs.dropLast.drop (msgs.dropLast.length - 20)
              let call : ModelCall :=
                { history := historyMessages.map (fun m =>
                    ((if m.role == "user" then "user" else "model"), m.content))
                  input := jsTrim c }
              match gen with
              | .thrown v => ((500, .failure (toErrorMessage v)), some call)
              | .generated none => ((502, .failure blockedMessage), some call)
              | .generated (some t) =>
                if jsTrim t = "" then ((502, .failure blockedMessage), some call)
                else ((200, .success (jsTrim t)), some call)

/-- The fade delay exactly as the specification words it: 1000 times
clamp(4 + wordCount/(200/60), 5, 15), written with the mathematical max
and min. -/
def specFadeDelayMs (content : String) : ℚ :=
  1000 * max 5 (min 15 (4 + (countWords content : ℚ) / (200 / 60)))

/-- The specification taxonomy of relay client errors: body not valid
structured data, message list missing or empty, or no user turn with
non-whitespace content. -/
def isBadRequest : ReqBody → Bool
  | .invalid => true
  | .parsed none => true
  | .parsed (some msgs) =>
    msgs.isEmpty ||
      (match (msgs.filter (fun m => m.role == "user")).getLast? with
       | none => true
       | some lastUser =>
         match lastUser.content with
         | none => true
         | some c => jsTrim c == "")

/-- The error text the specification attaches to each failing fetch
outcome, none for a successful one: the thrown message (with the sympathetic
fallback when no message is available), the decoded error of a non-ok
response (with defaults), and the nothing-to-say text for an undecodable or
empty reply. -/
def specFailMessage : FetchOutcome → Option String
  | .thrown (some m) => some m
  | .thrown none => some clientFallbackMessage
  | .response true (some d) =>
    (match d.content with
     | some c => if jsTrim c = "" then some nothingToSayMessage else none
     | none => some nothingToSayMessage)
  | .response true none => some nothingToSayMessage
  | .response false (some d) => some (jsOr d.error "Request failed")
  | .response false none => some "Request failed."

/-- A concrete 400-word content string, used to instantiate the clamping
scenario. -/
def fourHundredWords : String := ⟨(List.replicate 400 ['w', ' ']).flatten⟩

theorem ratMax_eq_max (a b : ℚ) : ratMax a b = max a b := (max_def a b).symm

theorem ratMin_eq_min (a b : ℚ) : ratMin a b = min a b := (min_def a b).symm

/-- C2: for every content string the fade delay in milliseconds equals
1000 * clamp(4 + wordCount/(200/60), 5, 15); a 13-word content gives
7900 ms, a 1-word content gives 5000 ms and a 400-word content gives
15000 ms. -/
theorem C2_fade_delay_formula (s : String) :
    getAIMessageFadeDelayMs s = specFadeDelayMs s
      ∧ (countWords s = 13 → getAIMessageFadeDelayMs s = 7900)
      ∧ (countWords s = 1 → getAIMessageFadeDelayMs s = 5000)
      ∧ (countWords s = 400 → getAIMessageFadeDelayMs s = 15000) := by
  refine ⟨?_, ?_, ?_, ?_⟩
  · simp only [getAIMessageFadeDelayMs, getReadingTimeSeconds, specFadeDelayMs,
      ratMax_eq_max, ratMin_eq_min]
    exact mul_comm _ _
  all_goals
    intro h
    simp only [getAIMessageFadeDelayMs, getReadingTimeSeconds, h]
    norm_num [ratMax, ratMin]

set_option maxRecDepth 40000 in
theorem C2_fade_delay_formula_witness :
    getAIMessageFadeDelayMs
        "hello hello hello hello hello hello hello hello hello hello hello hello hello"
        = 7900
      ∧ getAIMessageFadeDelayMs "hello" = 5000
      ∧ getAIMessageFadeDelayMs fourHundredWords = 15000 :=
  ⟨(C2_fade_delay_formula _).2.1 (by decide),
   (C2_fade_delay_formula _).2.2.1 (by decide),
   (C2_fade_delay_formula _).2.2.2 (by decide)⟩

/-- C3 counterexample: the fade delay is not monotonic in content length.
The 19-character content of ten one-letter words gets a strictly longer
delay than the 20-character single-word content. -/
theorem C3_fade_delay_length_counterexample :
    ("a a a a a a a a a a".length ≤ "aaaaaaaaaaaaaaaaaaaa".length)
      ∧ getAIMessageFadeDelayMs "aaaaaaaaaaaaaaaaaaaa"
          < getAIMessageFadeDelayMs "a a a a a a a a a a" := by
  constructor
  · decide
  · have h1 : countWords "a a a a a a a a a a" = 10 := by decide
    have h2 : countWords "aaaaaaaaaaaaaaaaaaaa" = 1 := by decide
    simp only [getAIMessageFadeDelayMs, getReadingTimeSeconds, h1, h2]
    norm_num [ratMax, ratMin]

/-- C3 amended: the fade delay is monotonic in the word count of the
content, and for every content string it lies within 5000 ms and 15000 ms
inclusive. -/
theorem C3_fade_delay_wordcount_monotone_bounded (s t : String)
    (h : countWords s ≤ countWords t) :
    getAIMessageFadeDelayMs s ≤ getAIMessageFadeDelayMs t
      ∧ 5000 ≤ getAIMessageFadeDelayMs s
      ∧ getAIMessageFadeDelayMs s ≤ 15000 := by
  refine ⟨?_, ?_, ?_⟩
  · simp only [getAIMessageFadeDelayMs, getReadingTimeSeconds, ratMax_eq_max,
      ratMin_eq_min]
    have hc : (countWords s : ℚ) ≤ (countWords t : ℚ) := by exact_mod_cast h
    gcongr
  · simp only [getAIMessageFadeDelayMs, getReadingTimeSeconds, ratMax_eq_max,
      ratMin_eq_min]
    have h5 : (5 : ℚ) ≤ max 5 (min 15 (4 + (countWords s : ℚ) / (200 / 60))) :=
      le_max_left _ _
    linarith
  · simp only [getAIMessageFadeDelayMs, getReadingTimeSeconds, ratMax_eq_max,
      ratMin_eq_min]
    have h15 : max (5 : ℚ) (min 15 (4 + (countWords s : ℚ) / (200 / 60))) ≤ 15 :=
      max_le (by norm_num) (min_le_left _ _)
    linarith

theorem C3_fade_delay_wordcount_monotone_bounded_witness :
    getAIMessageFadeDelayMs "hello" ≤ getAIMessageFadeDelayMs "hello hello"
      ∧ 5000 ≤ getAIMessageFadeDelayMs "hello"
      ∧ getAIMessageFadeDelayMs "hello" ≤ 15000 :=
  C3_fade_delay_wordcount_monotone_bounded "hello" "hello hello" (by decide)

/-- C6: a submission whose text is empty or whitespace-only leaves the
whole modelled state (message history, loading flag, transient response,
input, fading text) unchanged and makes no network call. -/
theorem C6_blank_submit_noop (s : ClientState) (o : FetchOutcome)
    (h : jsTrim s.inputValue = "") :
    sendMessage s o = (s, false) := by
  simp [sendMessage, h]

theorem C6_blank_submit_noop_witness :
    sendMessage
        { inputValue := "   ", messages := [], isLoading := false,
          currentResponse := "", fadingUserText := none, inputRevealed := true }
        (.response true none)
      = ({ inputValue := "   ", messages := [], isLoading := false,
           currentResponse := "", fadingUserText := none, inputRevealed := true }, false) :=
  C6_blank_submit_noop _ _ (by decide)

/-- C4: with a configured credential, the relay answers 400 exactly on the
specification's client-error conditions; an empty messages array yields the
messages-required error and a trailing blank user turn yields the
no-user-content error. -/
theorem C4_relay_rejects_400_iff (k : String) (gen : GenOutcome) :
    (∀ body : ReqBody, ((POST (some k) body gen).1.1 = 400 ↔ isBadRequest body = true))
      ∧ POST (some k) (.parsed (some [])) gen
          = ((400, .failure "messages array is required."), none)
      ∧ (∀ pre : List RelayMsg,
          POST (some k)
              (.parsed (some (pre ++ [{ role := "user", content := some "   " }]))) gen
            = ((400, .failure "No user message content."), none)) := by
  refine ⟨?_, by simp [POST], ?_⟩
  · intro body
    match body with
    | .invalid => simp [POST, isBadRequest]
    | .parsed none => simp [POST, isBadRequest]
    | .parsed (some msgs) =>
      by_cases hlen : msgs.length = 0
      · simp [POST, isBadRequest, hlen, List.isEmpty_iff, List.length_eq_zero.mp hlen]
      · match hl : (msgs.filter (fun m => m.role == "user")).getLast? with
        | none =>
          simp [POST, isBadRequest, hlen, hl, List.isEmpty_iff,
            (fun h => hlen (by simp [h]) : ¬msgs = [])]
        | some lastUser =>
          match hc : lastUser.content with
          | none =>
            simp [POST, isBadRequest, hlen, hl, hc, List.isEmpty_iff,
              (fun h => hlen (by simp [h]) : ¬msgs = [])]
          | some c =>
            have hnil : ¬msgs = [] := fun hmm => hlen (by simp [hmm])
            by_cases ht : jsTrim c = ""
            · simp [POST, isBadRequest, hlen, hl, hc, ht, List.isEmpty_iff, hnil]
            · match gen with
              | .thrown v =>
                simp [POST, isBadRequest, hlen, hl, hc, ht, List.isEmpty_iff, hnil]
              | .generated none =>
                simp [POST, isBadRequest, hlen, hl, hc, ht, List.isEmpty_iff, hnil]
              | .generated (some t) =>
                by_cases hg : jsTrim t = "" <;>
                  simp [POST, isBadRequest, hlen, hl, hc, ht, hg, List.isEmpty_iff, hnil]
  · intro pre
    have hfil :
        (pre ++ [({ role := "user", content := some "   " } : RelayMsg)]).filter
            (fun m => m.role == "user")
          = pre.filter (fun m => m.role == "user")
              ++ [({ role := "user", content := some "   " } : RelayMsg)] := by
      simp [List.filter_append]
    have hlast :
        ((pre ++ [({ role := "user", content := some "   " } : RelayMsg)]).filter
            (fun m => m.role == "user")).getLast?
          = some { role := "user", content := some "   " } := by
      rw [hfil]; exact List.getLast?_concat _
    have htrim : jsTrim "   " = "" := by decide
    simp [POST, hlast, htrim]

/-- C5: on a valid request the relay replays exactly the up-to-20 most
recent prior turns (the final turn excluded) as the model conversation
history, mapping the user role to user and every other role to model, and
sends the trimmed content of the final user turn as the new input. -/
theorem C5_relay_history_truncation (k : String) (msgs : List RelayMsg)
    (gen : GenOutcome) (lastUser : RelayMsg) (c : String)
    (hlast : (msgs.filter (fun m => m.role == "user")).getLast? = some lastUser)
    (hc : lastUser.content = some c) (hne : jsTrim c ≠ "") (hmsgs : msgs ≠ []) :
    ∃ call, (POST (some k) (.parsed (some msgs)) gen).2 = some call
      ∧ call.history = (msgs.dropLast.drop (msgs.dropLast.length - 20)).map
          (fun m => ((if m.role == "user" then "user" else "model"), m.content))
      ∧ call.history.length = min 20 msgs.dropLast.length
      ∧ call.input = jsTrim c := by
  have hlen : ¬msgs.length = 0 := by simpa [List.length_eq_zero] using hmsgs
  refine ⟨{ history := (msgs.dropLast.drop (msgs.dropLast.length - 20)).map
              (fun m => ((if m.role == "user" then "user" else "model"), m.content))
            input := jsTrim c }, ?_, rfl, ?_, rfl⟩
  · match gen with
    | .thrown v => simp [POST, hlen, hlast, hc, hne]
    | .generated none => simp [POST, hlen, hlast, hc, hne]
    | .generated (some t) =>
      by_cases hg : jsTrim t = "" <;> simp [POST, hlen, hlast, hc, hne, hg]
  · rw [List.length_map, List.length_drop]
    omega

theorem C5_relay_history_truncation_witness :
    ∃ call,
      (POST (some "k")
          (.parsed (some [{ role := "user", content := some "hi" }]))
          (.generated (some "ok"))).2 = some call
        ∧ call.history
            = (([{ role := "user", content := some "hi" }] : List RelayMsg).dropLast.drop
                (([{ role := "user", content := some "hi" }] : List RelayMsg).dropLast.length - 20)).map
                (fun m => ((if m.role == "user" then "user" else "model"), m.content))
        ∧ call.history.length
            = min 20 ([{ role := "user", content := some "hi" }] : List RelayMsg).dropLast.length
        ∧ call.input = jsTrim "hi" :=
  C5_relay_history_truncation "k" [{ role := "user", content := some "hi" }]
    (.generated (some "ok")) { role := "user", content := some "hi" } "hi"
    (by decide) rfl (by decide) (by decide)

/-- C9: a non-empty message list containing no user-role turn is rejected
with 400 and the no-user-content error, and the hosted model is never
contacted. -/
theorem C9_no_user_turn_rejected (k : String) (msgs : List RelayMsg)
    (gen : GenOutcome) (hne : msgs ≠ []) (hnou : ∀ m ∈ msgs, m.role ≠ "user") :
    POST (some k) (.parsed (some msgs)) gen
      = ((400, .failure "No user message content."), none) := by
  have hlen : ¬msgs.length = 0 := by simpa [List.length_eq_zero] using hne
  have hfil : msgs.filter (fun m => m.role == "user") = [] := by
    rw [List.filter_eq_nil_iff]
    intro a ha
    simp [hnou a ha]
  simp [POST, hlen, hfil]

theorem C9_no_user_turn_rejected_witness :
    POST (some "k")
        (.parsed (some [{ role := "assistant", content := some "hello" }]))
        (.generated (some "x"))
      = ((400, .failure "No user message content."), none) :=
  C9_no_user_turn_rejected "k" _ _ (by decide) (by decide)

/-- C1: a non-blank submission made while no request is in flight appends
exactly one user message synchronously before the network call, and a
successful relay response appends exactly one assistant message afterwards,
in that order. -/
theorem C1_submit_appends_user_then_assistant
    (s : ClientState) (o : FetchOutcome) (e : Option String) (c : String)
    (hne : jsTrim s.inputValue ≠ "") (hnl : s.isLoading = false)
    (ho : o = .response true (some { error := e, content := some c }))
    (hc : jsTrim c ≠ "") :
    (sendMessagePre s).messages
        = s.messages ++ [{ role := Role.user, content := jsTrim s.inputValue }]
      ∧ (sendMessage s o).2 = true
      ∧ (sendMessage s o).1.messages
          = s.messages
              ++ [{ role := Role.user, content := jsTrim s.inputValue },
                  { role := Role.assistant, content := jsTrim c }] := by
  subst ho
  refine ⟨by simp [sendMessagePre], ?_, ?_⟩
  · simp [sendMessage, hne, hnl]
  · simp [sendMessage, hne, hnl, sendMessageNet, sendMessagePre, hc]

theorem C1_submit_appends_user_then_assistant_witness :
    (sendMessagePre
        { inputValue := " hi ", messages := [], isLoading := false,
          currentResponse := "", fadingUserText := none, inputRevealed := true }).messages
        = [] ++ [{ role := Role.user, content := jsTrim " hi " }]
      ∧ (sendMessage
            { inputValue := " hi ", messages := [], isLoading := false,
              currentResponse := "", fadingUserText := none, inputRevealed := true }
            (.response true (some { error := none, content := some "Hello." }))).2 = true
      ∧ (sendMessage
            { inputValue := " hi ", messages := [], isLoading := false,
              currentResponse := "", fadingUserText := none, inputRevealed := true }
            (.response true (some { error := none, content := some "Hello." }))).1.messages
          = [] ++ [{ role := Role.user, content := jsTrim " hi " },
                   { role := Role.assistant, content := jsTrim "Hello." }] :=
  C1_submit_appends_user_then_assistant _ _ none "Hello."
    (by decide) rfl rfl (by decide)

/-- C7: a failing submission (non-ok response, undecodable or empty reply,
or a thrown error) appends exactly one assistant message carrying the error
text of that failure (the fixed sympathetic fallback when the thrown value
has no message) and clears the loading flag. -/
theorem C7_failure_appends_error_message
    (s : ClientState) (o : FetchOutcome) (msg : String)
    (hne : jsTrim s.inputValue ≠ "") (hnl : s.isLoading = false)
    (hfail : specFailMessage o = some msg) :
    (sendMessage s o).1.messages
        = s.messages
            ++ [{ role := Role.user, content := jsTrim s.inputValue },
                { role := Role.assistant, content := msg }]
      ∧ (sendMessage s o).1.isLoading = false
      ∧ (o = .thrown none → msg = clientFallbackMessage) := by
  match o with
  | .thrown none =>
    simp only [specFailMessage, Option.some.injEq] at hfail
    subst hfail
    refine ⟨?_, ?_, fun _ => rfl⟩ <;>
      simp [sendMessage, hne, hnl, sendMessageNet, sendMessagePre]
  | .thrown (some m) =>
    simp only [specFailMessage, Option.some.injEq] at hfail
    subst hfail
    refine ⟨?_, ?_, by simp⟩ <;>
      simp [sendMessage, hne, hnl, sendMessageNet, sendMessagePre]
  | .response true none =>
    simp only [specFailMessage, Option.some.injEq] at hfail
    subst hfail
    refine ⟨?_, ?_, by simp⟩ <;>
      simp [sendMessage, hne, hnl, sendMessageNet, sendMessagePre]
  | .response true (some d) =>
    match hd : d.content with
    | none =>
      simp only [specFailMessage, hd, Option.some.injEq] at hfail
      subst hfail
      refine ⟨?_, ?_, by simp⟩ <;>
        simp [sendMessage, hne, hnl, sendMessageNet, sendMessagePre, hd]
    | some c =>
      by_cases ht : jsTrim c = ""
      · have hmsg : nothingToSayMessage = msg := by
          simpa [specFailMessage, hd, ht] using hfail
        subst hmsg
        refine ⟨?_, ?_, by simp⟩ <;>
          simp [sendMessage, hne, hnl, sendMessageNet, sendMessagePre, hd, ht]
      · simp [specFailMessage, hd, ht] at hfail
  | .response false json =>
    match json with
    | none =>
      simp only [specFailMessage, Option.some.injEq] at hfail
      subst hfail
      refine ⟨?_, ?_, by simp⟩ <;>
        simp [sendMessage, hne, hnl, sendMessageNet, sendMessagePre, jsOr]
    | some d =>
      simp only [specFailMessage, Option.some.injEq] at hfail
      subst hfail
      refine ⟨?_, ?_, by simp⟩ <;>
        simp [sendMessage, hne, hnl, sendMessageNet, sendMessagePre]

theorem C7_failure_appends_error_message_witness :
    (sendMessage
        { inputValue := "hi", messages := [], isLoading := false,
          currentResponse := "", fadingUserText := none, inputRevealed := true }
        (.thrown none)).1.messages
        = [] ++ [{ role := Role.user, content := jsTrim "hi" },
                 { role := Role.assistant, content := clientFallbackMessage }]
      ∧ (sendMessage
            { inputValue := "hi", messages := [], isLoading := false,
              currentResponse := "", fadingUserText := none, inputRevealed := true }
            (.thrown none)).1.isLoading = false
      ∧ ((.thrown none : FetchOutcome) = .thrown none
          → clientFallbackMessage = clientFallbackMessage) :=
  C7_failure_appends_error_message _ (.thrown none) clientFallbackMessage
    (by decide) rfl rfl

theorem sendMessageNet_appends (pre : ClientState) (o : FetchOutcome) :
    ∃ m, (sendMessageNet pre o).messages = pre.messages ++ [m] := by
  match o with
  | .thrown m =>
    exact ⟨{ role := Role.assistant, content := m.getD clientFallbackMessage },
      by simp [sendMessageNet]⟩
  | .response false none =>
    exact ⟨{ role := Role.assistant, content := "Request failed." },
      by simp [sendMessageNet, jsOr]⟩
  | .response false (some d) =>
    exact ⟨{ role := Role.assistant, content := jsOr d.error "Request failed" },
      by simp [sendMessageNet]⟩
  | .response true none =>
    exact ⟨{ role := Role.assistant, content := nothingToSayMessage },
      by simp [sendMessageNet]⟩
  | .response true (some d) =>
    match hd : d.content with
    | none =>
      exact ⟨{ role := Role.assistant, content := nothingToSayMessage },
        by simp [sendMessageNet, hd]⟩
    | some c =>
      by_cases ht : jsTrim c = ""
      · exact ⟨{ role := Role.assistant, content := nothingToSayMessage },
          by simp [sendMessageNet, hd, ht]⟩
      · exact ⟨{ role := Role.assistant, content := jsTrim c },
          by simp [sendMessageNet, hd, ht]⟩

/-- C10: the message history is append-only: every modelled operation of
the interaction controller either leaves it unchanged or appends messages
at its end, so existing entries are never edited or removed and insertion
order remains conversation order. -/
theorem C10_history_append_only (s : ClientState) (op : ClientOp) :
    ∃ t, (clientStep s op).messages = s.messages ++ t := by
  match op with
  | .click excluded =>
    refine ⟨[], ?_⟩
    simp only [clientStep]
    split
    · simp
    · split <;> simp
  | .keySeed c focused modifier =>
    refine ⟨[], ?_⟩
    simp only [clientStep]
    split
    · simp
    · split
      · simp
      · split <;> simp
  | .setInput v => exact ⟨[], by simp [clientStep]⟩
  | .send o =>
    simp only [clientStep, sendMessage]
    split
    · exact ⟨[], by simp⟩
    · obtain ⟨m, hm⟩ := sendMessageNet_appends (sendMessagePre s) o
      refine ⟨[{ role := Role.user, content := jsTrim s.inputValue }, m], ?_⟩
      rw [hm]
      simp [sendMessagePre]

theorem scheduleFadeAux_spec (l : List (ℕ × Message)) (sched : Finset ℕ) :
    sched ⊆ (scheduleFadeAux l sched).1
      ∧ (∀ j ∈ (scheduleFadeAux l sched).2.map Prod.fst, j ∈ (scheduleFadeAux l sched).1)
      ∧ (∀ i ∈ sched, ((scheduleFadeAux l sched).2.map Prod.fst).count i = 0)
      ∧ (∀ i, ((scheduleFadeAux l sched).2.map Prod.fst).count i ≤ 1) := by
  induction l generalizing sched with
  | nil => simp [scheduleFadeAux]
  | cons hd rest ih =>
    obtain ⟨j, m⟩ := hd
    by_cases hcond : m.role = Role.assistant ∧ j ∉ sched
    · have ihs := ih (insert j sched)
      simp only [scheduleFadeAux, if_pos hcond, List.map_cons]
      refine ⟨?_, ?_, ?_, ?_⟩
      · exact fun x hx => ihs.1 (Finset.mem_insert_of_mem hx)
      · intro x hx
        rcases List.mem_cons.mp hx with rfl | hx
        · exact ihs.1 (Finset.mem_insert_self _ _)
        · exact ihs.2.1 x hx
      · intro i hi
        have hij : ¬i = j := fun h => hcond.2 (h ▸ hi)
        have h0 := ihs.2.2.1 i (Finset.mem_insert_of_mem hi)
        simp [List.count_cons, h0, hij]
      · intro i
        by_cases hij : i = j
        · subst hij
          have h0 := ihs.2.2.1 i (Finset.mem_insert_self _ _)
          simp [List.count_cons, h0]
        · have h1 := ihs.2.2.2 i
          simp only [List.count_cons, beq_iff_eq]
          rw [if_neg (fun h => hij h.symm)]
          simpa using h1
    · simp only [scheduleFadeAux, if_neg hcond]
      exact ih sched

theorem scheduleFadeAux_emits (i : ℕ) (m : Message)
    (hrole : m.role = Role.assistant) (l : List (ℕ × Message)) :
    ∀ sched : Finset ℕ, (l.map Prod.fst).Nodup → (i, m) ∈ l → i ∉ sched →
      i ∈ (scheduleFadeAux l sched).2.map Prod.fst := by
  induction l with
  | nil =>
    intro sched _ hmem _
    simp at hmem
  | cons hd rest ih =>
    intro sched hnd hmem hsched
    obtain ⟨j, m₀⟩ := hd
    simp only [List.map_cons, List.nodup_cons] at hnd
    rcases List.mem_cons.mp hmem with heq | hmem'
    · have hij : i = j := congrArg Prod.fst heq
      have hm : m = m₀ := congrArg Prod.snd heq
      subst hij
      subst hm
      have hcond : m.role = Role.assistant ∧ i ∉ sched := ⟨hrole, hsched⟩
      simp only [scheduleFadeAux, if_pos hcond, List.map_cons]
      exact List.mem_cons_self _ _
    · have hij : ¬j = i := by
        intro h
        subst h
        exact hnd.1 (List.mem_map_of_mem Prod.fst hmem')
      by_cases hcond : m₀.role = Role.assistant ∧ j ∉ sched
      · simp only [scheduleFadeAux, if_pos hcond, List.map_cons]
        refine List.mem_cons_of_mem _ (ih (insert j sched) hnd.2 hmem' ?_)
        simp only [Finset.mem_insert]
        push_neg
        exact ⟨fun h => hij h.symm, hsched⟩
      · simp only [scheduleFadeAux, if_neg hcond]
        exact ih sched hnd.2 hmem' hsched

theorem runScheduleSeq_spec (hists : List (List Message)) (sched : Finset ℕ) :
    sched ⊆ (runScheduleSeq sched hists).1
      ∧ (∀ j ∈ (runScheduleSeq sched hists).2.map Prod.fst,
          j ∈ (runScheduleSeq sched hists).1)
      ∧ (∀ i ∈ sched, ((runScheduleSeq sched hists).2.map Prod.fst).count i = 0)
      ∧ (∀ i, ((runScheduleSeq sched hists).2.map Prod.fst).count i ≤ 1) := by
  induction hists generalizing sched with
  | nil => simp [runScheduleSeq]
  | cons msgs rest ih =>
    have h1 := scheduleFadeAux_spec msgs.enum sched
    have h2 := ih (scheduleFadeStep msgs sched).1
    rw [show scheduleFadeStep msgs sched = scheduleFadeAux msgs.enum sched from rfl] at h2
    simp only [runScheduleSeq, scheduleFadeStep, List.map_append]
    refine ⟨?_, ?_, ?_, ?_⟩
    · exact fun x hx => h2.1 (h1.1 hx)
    · intro x hx
      rcases List.mem_append.mp hx with hx | hx
      · exact h2.1 (h1.2.1 x hx)
      · exact h2.2.1 x hx
    · intro x hx
      rw [List.count_append]
      have c1 := h1.2.2.1 x hx
      have c2 := h2.2.2.1 x (h1.1 hx)
      omega
    · intro x
      rw [List.count_append]
      have c1 := h1.2.2.2 x
      have c2 := h2.2.2.2 x
      by_cases hx : x ∈ (scheduleFadeAux msgs.enum sched).2.map Prod.fst
      · have c3 := h2.2.2.1 x (h1.2.1 x hx)
        omega
      · have c0 : ((scheduleFadeAux msgs.enum sched).2.map Prod.fst).count x = 0 :=
          List.count_eq_zero.mpr hx
        omega

/-- C8: every assistant message is scheduled for fade exactly once.  Over
any sequence of runs of the scheduling effect starting from the empty
scheduled set, each message index is emitted at most once, and one run
always emits the index of an assistant message it sees that is not yet
scheduled. -/
theorem C8_fade_scheduled_exactly_once (hists : List (List Message)) (i : ℕ) :
    (((runScheduleSeq ∅ hists).2.map Prod.fst).count i ≤ 1)
      ∧ (∀ (msgs : List Message) (sched : Finset ℕ) (h : i < msgs.length),
          (msgs.get ⟨i, h⟩).role = Role.assistant → i ∉ sched →
            i ∈ (scheduleFadeStep msgs sched).2.map Prod.fst) := by
  refine ⟨(runScheduleSeq_spec hists ∅).2.2.2 i, ?_⟩
  intro msgs sched h hrole hsched
  have hmem : (i, msgs.get ⟨i, h⟩) ∈ msgs.enum := by
    rw [List.mk_mem_enum_iff_getElem?]
    simp [List.getElem?_eq_getElem h]
  exact scheduleFadeAux_emits i _ hrole msgs.enum sched
    (List.nodup_enum_map_fst _) hmem hsched

theorem C8_fade_scheduled_exactly_once_witness :
    (((runScheduleSeq ∅
          [[{ role := Role.assistant, content := "hi" }],
           [{ role := Role.assistant, content := "hi" }]]).2.map Prod.fst).count 0 ≤ 1)
      ∧ 0 ∈ (scheduleFadeStep [{ role := Role.assistant, content := "hi" }]
              (∅ : Finset ℕ)).2.map Prod.fst := by
  have h := C8_fade_scheduled_exactly_once
    [[{ role := Role.assistant, content := "hi" }],
     [{ role := Role.assistant, content := "hi" }]] 0
  exact ⟨h.1, h.2 [{ role := Role.assistant, content := "hi" }] ∅
    (by decide) rfl (by decide)⟩

end Diary
